import Mathlib

/-!
# Verification of the gptdiff hook scripts

A shallow embedding of the three Python scripts under
`external_plugins/gptdiff/hooks/` — `gptdiff_apply.py`, `prepare_context.py`
and `list_agents.py` — together with proofs of the specification's claims
about them.

Paths are modelled structurally: an absolute path string `/a/b` is the
component list `["a", "b"]`, and a raw (possibly relative, possibly
unnormalized) path string is a `RawPath` (an `absolute` flag plus raw
components, which may contain `""`, `"."` or `".."`).  The external
`gptdiff` library functions (`load_project_files`, `build_environment`,
`generate_diff`, `smartapply`) are oracles supplied through an environment
record; everything the scripts themselves do is translated from the source.
-/

set_option maxRecDepth 4096

/-- Python `str.startswith`: `pre` is a prefix of `s`. -/
def strStartsWith (s pre : String) : Bool :=
  pre.data.isPrefixOf s.data

/-- Python `sep.join(parts)` with `sep = "/"`. -/
def joinSlash : List String → String
  | [] => ""
  | [x] => x
  | x :: xs => x ++ "/" ++ joinSlash xs

/-- Characters stripped by Python `str.strip()` (ASCII whitespace). -/
def pyIsSpace (c : Char) : Bool :=
  c = ' ' || c = '\t' || c = '\n' || c = '\r' || c = '\x0b' || c = '\x0c'

/-- Python `str.strip()`. -/
def pyStrip (s : String) : String :=
  String.mk (((s.data.dropWhile pyIsSpace).reverse.dropWhile pyIsSpace).reverse)

/-- A raw path string: `absolute` records a leading `/`; `comps` are the
`/`-separated components, which may still contain `""`, `"."` or `".."`. -/
structure RawPath where
  absolute : Bool
  comps : List String
deriving DecidableEq, Repr

/-- A path component that survives `os.path.normpath` unchanged. -/
def normalComp (c : String) : Bool :=
  c ≠ "" && c ≠ "." && c ≠ ".."

/-- `os.path.normpath` on the components of an *absolute* path: drop empty
and `"."` components, let `".."` pop the previous component (or vanish at
the root). -/
def normComps (cs : List String) : List String :=
  cs.foldl (fun acc c =>
    if c = "" ∨ c = "." then acc
    else if c = ".." then acc.dropLast
    else acc ++ [c]) []

/-- `os.path.abspath`: join a relative path onto the (already normalized,
absolute) current directory and normalize; an absolute path is just
normalized. -/
def abspath (cwd : List String) (p : RawPath) : List String :=
  normComps (if p.absolute then p.comps else cwd ++ p.comps)

/-- Render an absolute component list as the path string Python would show. -/
def renderAbs (cs : List String) : String :=
  "/" ++ joinSlash cs

/-- Render a `RawPath` as its original string. -/
def renderPath (p : RawPath) : String :=
  (if p.absolute then "/" else "") ++ joinSlash p.comps

/-- Strip the longest common prefix of two component lists (the
`commonprefix` step of `posixpath.relpath`), returning both remainders. -/
def stripCommon : List String → List String → List String × List String
  | x :: xs, y :: ys => if x = y then stripCommon xs ys else (x :: xs, y :: ys)
  | xs, ys => (xs, ys)

/-- The component list of `posixpath.relpath(path, start)` for two
normalized absolute paths. -/
def relpathComps (pathC startC : List String) : List String :=
  let r := stripCommon pathC startC
  List.replicate r.2.length ".." ++ r.1

/-- `posixpath.relpath(path, start)` as a string (`"."` when the paths are
equal). -/
def relpathStr (pathC startC : List String) : String :=
  let r := relpathComps pathC startC
  if r = [] then "." else joinSlash r

/-- Association-list dictionary keyed by `K`, preserving Python `dict`
insertion order: updating an existing key keeps its position. -/
def dictInsert {K V : Type} [DecidableEq K] (d : List (K × V)) (k : K) (v : V) :
    List (K × V) :=
  if (d.find? (fun e => e.1 = k)).isSome then
    d.map (fun e => if e.1 = k then (k, v) else e)
  else d ++ [(k, v)]

/-- Dictionary lookup. -/
def dictLookup {K V : Type} [DecidableEq K] (d : List (K × V)) (k : K) :
    Option V :=
  (d.find? (fun e => e.1 = k)).map (·.2)

/-- The value of the last entry with key `k` in a load sequence. -/
def lastVal {K V : Type} [DecidableEq K] (l : List (K × V)) (k : K) : Option V :=
  (l.reverse.find? (fun e => e.1 = k)).map (·.2)

/-! ## `gptdiff_apply.py`: the write-back scope check (lines 221–239) -/

/-- The body of `is_within_targets` after the `os.path.abspath` call: scan
the target directories for one whose `relpath` string does not start with
`".."`, then fall back to exact equality with an individual target file. -/
def iwCore (tdirs tfiles : List (List String)) (absP : List String) :
    Bool × Option (List String) × Option String :=
  match tdirs.find? (fun tdir => !(strStartsWith (relpathStr absP tdir) "..")) with
  | some tdir => (true, some tdir, some (relpathStr absP tdir))
  | none =>
      match tfiles.find? (fun tfile => absP = tfile) with
      | some tfile => (true, some tfile.dropLast, some (tfile.getLast?.getD ""))
      | none => (false, none, none)

/-- `is_within_targets(filepath)` from `gptdiff_apply.py`: resolve the path
with `os.path.abspath`, then run the scope scan. -/
def is_within_targets (cwd : List String) (tdirs tfiles : List (List String))
    (p : RawPath) : Bool × Option (List String) × Option String :=
  iwCore tdirs tfiles (abspath cwd p)

/-- Line 245 of `gptdiff_apply.py`:
`abs_path = os.path.abspath(path) if not os.path.isabs(path) else path`.
An absolute key is kept verbatim (unnormalized); a relative one is
resolved. -/
def resolveKey (cwd : List String) (p : RawPath) : RawPath :=
  if p.absolute then p else ⟨true, abspath cwd p⟩

/-- State built by the save loop of `gptdiff_apply.py` (lines 241–261):
attempted writes (with their resolved paths), skipped out-of-scope paths in
order, and the saved-file counter. -/
structure SaveResult where
  writes : List (RawPath × String)
  skipped : List RawPath
  savedCount : Nat
deriving DecidableEq, Repr

/-- The write-back loop: each updated entry is resolved, checked against
the scope, and either written or appended to the skipped list. -/
def saveFilesLoop (cwd : List String) (tdirs tfiles : List (List String))
    (updated : List (RawPath × String)) : SaveResult :=
  updated.foldl (fun acc e =>
    let a := resolveKey cwd e.1
    if (is_within_targets cwd tdirs tfiles a).1 then
      { acc with writes := acc.writes ++ [(a, e.2)],
                 savedCount := acc.savedCount + 1 }
    else
      { acc with skipped := acc.skipped ++ [e.1] }) ⟨[], [], 0⟩

/-- The skipped-files warning shows at most the first five entries
(`skipped_files[:5]`). -/
def skippedWarnShown (sk : List RawPath) : List RawPath :=
  sk.take 5

/-- The `"... and N more"` remainder count, printed only when more than
five files were skipped. -/
def skippedWarnMore (sk : List RawPath) : Nat :=
  if 5 < sk.length then sk.length - 5 else 0

/-- The stderr lines of the skipped-files summary warning. -/
def skippedWarnLines (sk : List RawPath) : List String :=
  if sk.isEmpty then []
  else
    ("Skipped " ++ toString sk.length ++ " files outside target scope:") ::
      (skippedWarnShown sk).map (fun p => "   - " ++ renderPath p) ++
      (if 5 < sk.length then
        ["   ... and " ++ toString (skippedWarnMore sk) ++ " more"]
      else [])

/-- Result of the change-counting loop of `gptdiff_apply.py`
(lines 270–288). -/
structure CountResult where
  changed : Nat
  newCount : Nat
  changedPaths : List RawPath
  newPaths : List RawPath
deriving DecidableEq, Repr

/-- The change-counting loop: in-scope updated entries are compared with
the original mapping; a present key with different content is "modified",
an absent key is "new". -/
def countChanges (cwd : List String) (tdirs tfiles : List (List String))
    (files updated : List (RawPath × String)) : CountResult :=
  updated.foldl (fun acc e =>
    let a := resolveKey cwd e.1
    if (is_within_targets cwd tdirs tfiles a).1 then
      match dictLookup files a with
      | some old =>
          if old ≠ e.2 then
            { acc with changed := acc.changed + 1,
                       changedPaths := acc.changedPaths ++ [e.1] }
          else acc
      | none =>
          { acc with newCount := acc.newCount + 1,
                     newPaths := acc.newPaths ++ [e.1] }
    else acc) ⟨0, 0, [], []⟩

/-! ## Helper lemmas: strings, paths, dictionaries -/

theorem strStartsWith_append (a b : String) : strStartsWith (a ++ b) a = true := by
  simp [strStartsWith, String.data_append, List.isPrefixOf_iff_prefix]

theorem strStartsWith_self (a : String) : strStartsWith a a = true := by
  simp [strStartsWith, List.isPrefixOf_iff_prefix]

theorem strStartsWith_joinSlash (c : String) (r : List String) :
    strStartsWith (joinSlash (c :: r)) c = true := by
  cases r with
  | nil => exact strStartsWith_self c
  | cons x xs =>
      show strStartsWith (c ++ "/" ++ joinSlash (x :: xs)) c = true
      rw [String.append_assoc]
      exact strStartsWith_append c _

theorem normComps_of_normal (cs : List String) (h : ∀ c ∈ cs, normalComp c = true) :
    normComps cs = cs := by
  have key : ∀ (l : List String) (acc : List String),
      (∀ c ∈ l, normalComp c = true) →
      (l.foldl (fun acc c =>
        if c = "" ∨ c = "." then acc
        else if c = ".." then acc.dropLast
        else acc ++ [c]) acc) = acc ++ l := by
    intro l
    induction l with
    | nil => intro acc _; simp
    | cons c l ih =>
        intro acc hl
        have hc := hl c (by simp)
        simp only [normalComp, Bool.and_eq_true, decide_eq_true_eq] at hc
        simp only [List.foldl_cons]
        rw [if_neg (by tauto), if_neg (by tauto),
          ih (acc ++ [c]) (fun x hx => hl x (by simp [hx]))]
        simp
  simpa using key cs [] h

theorem normComps_mem_normal (cs : List String) :
    ∀ c ∈ normComps cs, normalComp c = true := by
  have key : ∀ (l : List String) (acc : List String),
      (∀ c ∈ acc, normalComp c = true) →
      ∀ c ∈ (l.foldl (fun acc c =>
        if c = "" ∨ c = "." then acc
        else if c = ".." then acc.dropLast
        else acc ++ [c]) acc), normalComp c = true := by
    intro l
    induction l with
    | nil => intro acc hacc; simpa using hacc
    | cons c l ih =>
        intro acc hacc
        simp only [List.foldl_cons]
        by_cases h1 : c = "" ∨ c = "."
        · rw [if_pos h1]; exact ih acc hacc
        · rw [if_neg h1]
          by_cases h2 : c = ".."
          · rw [if_pos h2]
            exact ih _ (fun x hx => hacc x (List.dropLast_subset _ hx))
          · rw [if_neg h2]
            refine ih _ (fun x hx => ?_)
            rcases List.mem_append.1 hx with hx | hx
            · exact hacc x hx
            · simp only [List.mem_singleton] at hx
              subst hx
              simp only [normalComp, Bool.and_eq_true, decide_eq_true_eq, ne_eq]
              tauto
  intro c hc
  exact key cs [] (by simp) c hc

theorem normComps_idem (cs : List String) : normComps (normComps cs) = normComps cs :=
  normComps_of_normal _ (normComps_mem_normal cs)

theorem abspath_resolveKey (cwd : List String) (p : RawPath) :
    abspath cwd (resolveKey cwd p) = abspath cwd p := by
  unfold resolveKey
  by_cases h : p.absolute
  · rw [if_pos h]
  · rw [if_neg h]
    show normComps (abspath cwd p) = abspath cwd p
    unfold abspath
    rw [if_neg h]
    exact normComps_idem _

theorem stripCommon_append (T rest : List String) :
    stripCommon (T ++ rest) T = (rest, []) := by
  induction T with
  | nil =>
      cases rest with
      | nil => rfl
      | cons x xs => rfl
  | cons t T ih =>
      show stripCommon (t :: (T ++ rest)) (t :: T) = (rest, [])
      rw [stripCommon, if_pos rfl]
      exact ih

theorem stripCommon_snd_ne (xs ys : List String) (h : ¬ ys <+: xs) :
    (stripCommon xs ys).2 ≠ [] := by
  induction ys generalizing xs with
  | nil => exact absurd (List.nil_prefix) h
  | cons y ys ih =>
      cases xs with
      | nil => simp [stripCommon]
      | cons x xs =>
          rw [stripCommon]
          by_cases he : x = y
          · subst he
            rw [if_pos rfl]
            exact ih xs (fun hp => h (List.cons_prefix_cons.mpr ⟨rfl, hp⟩))
          · rw [if_neg he]; simp

theorem relpathStr_dotdot_of_not_prefix (absP td : List String) (h : ¬ td <+: absP) :
    strStartsWith (relpathStr absP td) ".." = true := by
  have hne := stripCommon_snd_ne absP td h
  unfold relpathStr relpathComps
  rcases hsnd : (stripCommon absP td).2 with _ | ⟨z, zs⟩
  · exact absurd hsnd hne
  · simp only [hsnd, List.length_cons, List.replicate_succ, List.cons_append]
    rw [if_neg (by simp)]
    exact strStartsWith_joinSlash ".." _

theorem relpathComps_append (T rest : List String) :
    relpathComps (T ++ rest) T = rest := by
  unfold relpathComps
  rw [stripCommon_append]
  simp

theorem iwCore_fst_false (tdirs tfiles : List (List String)) (absP : List String)
    (hd : ∀ td ∈ tdirs, strStartsWith (relpathStr absP td) ".." = true)
    (hf : absP ∉ tfiles) :
    (iwCore tdirs tfiles absP).1 = false := by
  unfold iwCore
  rw [List.find?_eq_none.2 (fun td hmem => by simp [hd td hmem]),
    List.find?_eq_none.2 (fun tf hmem => by
      simp only [decide_eq_true_eq]
      rintro rfl
      exact hf hmem)]

theorem iwCore_fst_true_iff (tdirs tfiles : List (List String)) (absP : List String) :
    (iwCore tdirs tfiles absP).1 = true ↔
      (∃ td ∈ tdirs, strStartsWith (relpathStr absP td) ".." = false) ∨ absP ∈ tfiles := by
  unfold iwCore
  rcases h1 : tdirs.find? (fun tdir => !(strStartsWith (relpathStr absP tdir) "..")) with _ | td
  · rcases h2 : tfiles.find? (fun tfile => absP = tfile) with _ | tf
    · simp only [List.find?_eq_none] at h1 h2
      constructor
      · intro h; exact absurd h (by simp)
      · rintro (⟨td, hmem, hsw⟩ | hmem)
        · exact absurd (by simp [hsw]) (h1 td hmem)
        · exact absurd (by simp) (h2 absP hmem)
    · have := List.find?_some h2
      have hmem := List.mem_of_find?_eq_some h2
      simp only [decide_eq_true_eq] at this
      subst this
      simp [hmem]
  · have hp := List.find?_some h1
    have hmem := List.mem_of_find?_eq_some h1
    simp only [Bool.not_eq_true'] at hp
    simp only [true_iff]
    exact Or.inl ⟨td, hmem, hp⟩

theorem saveFilesLoop_eq (cwd : List String) (tds tfs : List (List String))
    (updated : List (RawPath × String)) :
    saveFilesLoop cwd tds tfs updated =
      { writes := updated.filterMap (fun e =>
          if (is_within_targets cwd tds tfs (resolveKey cwd e.1)).1 then
            some (resolveKey cwd e.1, e.2) else none),
        skipped := (updated.filter (fun e =>
          !(is_within_targets cwd tds tfs (resolveKey cwd e.1)).1)).map (·.1),
        savedCount := (updated.filter (fun e =>
          (is_within_targets cwd tds tfs (resolveKey cwd e.1)).1)).length } := by
  have key : ∀ (l : List (RawPath × String)) (acc : SaveResult),
      (l.foldl (fun acc e =>
        let a := resolveKey cwd e.1
        if (is_within_targets cwd tds tfs a).1 then
          { acc with writes := acc.writes ++ [(a, e.2)],
                     savedCount := acc.savedCount + 1 }
        else
          { acc with skipped := acc.skipped ++ [e.1] }) acc) =
      { writes := acc.writes ++ l.filterMap (fun e =>
          if (is_within_targets cwd tds tfs (resolveKey cwd e.1)).1 then
            some (resolveKey cwd e.1, e.2) else none),
        skipped := acc.skipped ++ (l.filter (fun e =>
          !(is_within_targets cwd tds tfs (resolveKey cwd e.1)).1)).map (·.1),
        savedCount := acc.savedCount + (l.filter (fun e =>
          (is_within_targets cwd tds tfs (resolveKey cwd e.1)).1)).length } := by
    intro l
    induction l with
    | nil => intro acc; simp
    | cons e l ih =>
        intro acc
        by_cases hv : (is_within_targets cwd tds tfs (resolveKey cwd e.1)).1
        · simp only [List.foldl_cons, if_pos hv, ih, List.filterMap_cons,
            List.filter_cons, hv, if_pos, Bool.not_true, if_true]
          simp [List.append_assoc, Nat.add_comm, Nat.add_assoc, Nat.add_left_comm]
        · simp only [Bool.not_eq_true] at hv
          simp only [List.foldl_cons, hv, if_false, ih, List.filterMap_cons,
            List.filter_cons, Bool.not_false, if_true]
          simp [hv, List.append_assoc]
  simpa using key updated ⟨[], [], 0⟩

theorem countChanges_eq (cwd : List String) (tds tfs : List (List String))
    (files updated : List (RawPath × String)) :
    countChanges cwd tds tfs files updated =
      { changed := (updated.filter (fun e =>
          (is_within_targets cwd tds tfs (resolveKey cwd e.1)).1 &&
            (match dictLookup files (resolveKey cwd e.1) with
             | some old => decide (old ≠ e.2)
             | none => false))).length,
        newCount := (updated.filter (fun e =>
          (is_within_targets cwd tds tfs (resolveKey cwd e.1)).1 &&
            (dictLookup files (resolveKey cwd e.1)).isNone)).length,
        changedPaths := (updated.filter (fun e =>
          (is_within_targets cwd tds tfs (resolveKey cwd e.1)).1 &&
            (match dictLookup files (resolveKey cwd e.1) with
             | some old => decide (old ≠ e.2)
             | none => false))).map (·.1),
        newPaths := (updated.filter (fun e =>
          (is_within_targets cwd tds tfs (resolveKey cwd e.1)).1 &&
            (dictLookup files (resolveKey cwd e.1)).isNone)).map (·.1) } := by
  have key : ∀ (l : List (RawPath × String)) (acc : CountResult),
      (l.foldl (fun acc e =>
        let a := resolveKey cwd e.1
        if (is_within_targets cwd tds tfs a).1 then
          match dictLookup files a with
          | some old =>
              if old ≠ e.2 then
                { acc with changed := acc.changed + 1,
                           changedPaths := acc.changedPaths ++ [e.1] }
              else acc
          | none =>
              { acc with newCount := acc.newCount + 1,
                         newPaths := acc.newPaths ++ [e.1] }
        else acc) acc) =
      { changed := acc.changed + (l.filter (fun e =>
          (is_within_targets cwd tds tfs (resolveKey cwd e.1)).1 &&
            (match dictLookup files (resolveKey cwd e.1) with
             | some old => decide (old ≠ e.2)
             | none => false))).length,
        newCount := acc.newCount + (l.filter (fun e =>
          (is_within_targets cwd tds tfs (resolveKey cwd e.1)).1 &&
            (dictLookup files (resolveKey cwd e.1)).isNone)).length,
        changedPaths := acc.changedPaths ++ (l.filter (fun e =>
          (is_within_targets cwd tds tfs (resolveKey cwd e.1)).1 &&
            (match dictLookup files (resolveKey cwd e.1) with
             | some old => decide (old ≠ e.2)
             | none => false))).map (·.1),
        newPaths := acc.newPaths ++ (l.filter (fun e =>
          (is_within_targets cwd tds tfs (resolveKey cwd e.1)).1 &&
            (dictLookup files (resolveKey cwd e.1)).isNone)).map (·.1) } := by
    intro l
    induction l with
    | nil => intro acc; simp
    | cons e l ih =>
        intro acc
        by_cases hv : (is_within_targets cwd tds tfs (resolveKey cwd e.1)).1
        · rcases hl : dictLookup files (resolveKey cwd e.1) with _ | old
          · simp only [List.foldl_cons, if_pos hv, hl, ih, List.filter_cons, hv, hl,
              Option.isNone_none, Bool.and_true, Bool.and_false, if_true, if_false]
            simp [List.append_assoc, Nat.add_comm, Nat.add_assoc, Nat.add_left_comm]
          · by_cases hne : old ≠ e.2
            · simp only [List.foldl_cons, if_pos hv, hl, if_pos hne, ih,
                List.filter_cons, hv, hl, hne, decide_True, Option.isNone_some,
                Bool.and_true, Bool.and_false, if_true, if_false]
              simp [hne, List.append_assoc, Nat.add_comm, Nat.add_assoc,
                Nat.add_left_comm]
            · simp only [List.foldl_cons, if_pos hv, hl, if_neg hne, ih,
                List.filter_cons, hv, hl, hne, decide_False, Option.isNone_some,
                Bool.and_true, Bool.and_false, if_true, if_false]
              simp [hne]
        · simp only [Bool.not_eq_true] at hv
          simp only [List.foldl_cons, hv, if_false, ih, List.filter_cons,
            Bool.false_and, if_false]
          simp [hv]
  unfold countChanges
  simpa using key updated ⟨0, 0, [], []⟩

theorem dictLookup_map_ne {K V : Type} [DecidableEq K] (d : List (K × V))
    (k k' : K) (v : V) (h : k' ≠ k) :
    dictLookup (d.map (fun e => if e.1 = k then (k, v) else e)) k' =
      dictLookup d k' := by
  induction d with
  | nil => rfl
  | cons e d ih =>
      have hkk : (decide (k = k')) = false := decide_eq_false (Ne.symm h)
      by_cases he : e.1 = k
      · have h2 : (decide (e.1 = k')) = false :=
          decide_eq_false (by rw [he]; exact Ne.symm h)
        simp only [List.map_cons, if_pos he, dictLookup, List.find?_cons, hkk, h2]
        simpa [dictLookup] using ih
      · simp only [List.map_cons, if_neg he, dictLookup, List.find?_cons]
        rcases h3 : (decide (e.1 = k')) with _ | _
        · simpa [dictLookup] using ih
        · rfl

theorem dictLookup_map_eq {K V : Type} [DecidableEq K] (d : List (K × V))
    (k : K) (v : V) (h : (d.find? (fun e => e.1 = k)).isSome) :
    dictLookup (d.map (fun e => if e.1 = k then (k, v) else e)) k = some v := by
  induction d with
  | nil => simp [List.find?] at h
  | cons e d ih =>
      by_cases he : e.1 = k
      · simp [dictLookup, List.find?_cons, if_pos he]
      · have h2 : (decide (e.1 = k)) = false := decide_eq_false he
        simp only [List.find?_cons, h2] at h
        simp only [List.map_cons, if_neg he, dictLookup, List.find?_cons, h2]
        simpa [dictLookup] using ih h

theorem dictLookup_insert {K V : Type} [DecidableEq K] (d : List (K × V))
    (k k' : K) (v : V) :
    dictLookup (dictInsert d k v) k' =
      if k' = k then some v else dictLookup d k' := by
  by_cases hs : (d.find? (fun e => e.1 = k)).isSome = true
  · rw [dictInsert, if_pos hs]
    by_cases hk : k' = k
    · subst hk
      rw [if_pos rfl]
      exact dictLookup_map_eq d k' v hs
    · rw [if_neg hk]
      exact dictLookup_map_ne d k k' v hk
  · rw [dictInsert, if_neg hs]
    have hnone : d.find? (fun e => decide (e.1 = k)) = none := by
      rcases hf : d.find? (fun e => decide (e.1 = k)) with _ | a
      · exact hf
      · exact absurd (by simp [hf]) hs
    by_cases hk : k' = k
    · subst hk
      rw [if_pos rfl]
      simp [dictLookup, List.find?_append, hnone]
    · rw [if_neg hk]
      have h1 : List.find? (fun e => decide (e.1 = k')) [(k, v)] = none := by
        simp only [List.find?_cons, decide_eq_false (fun hh : k = k' => hk hh.symm)]
        rfl
      simp only [dictLookup, List.find?_append, h1, Option.or_none]

theorem dictLookup_foldl_insert {K V : Type} [DecidableEq K]
    (l : List (K × V)) (d0 : List (K × V)) (k : K) :
    dictLookup (l.foldl (fun dc e => dictInsert dc e.1 e.2) d0) k =
      (lastVal l k).or (dictLookup d0 k) := by
  induction l generalizing d0 with
  | nil => rfl
  | cons e l ih =>
      simp only [List.foldl_cons]
      rw [ih]
      unfold lastVal
      rw [List.reverse_cons, List.find?_append]
      rcases hf : (l.reverse.find? (fun e => decide (e.1 = k))) with _ | a
      · rw [hf]
        simp only [Option.none_or, Option.map_none']
        rw [dictLookup_insert]
        by_cases he : e.1 = k
        · have h1 : List.find? (fun x => decide (x.1 = k)) [e] = some e := by
            simp [List.find?_cons, he]
          rw [h1, if_pos he.symm]
          rfl
        · have h1 : List.find? (fun x => decide (x.1 = k)) [e] = none := by
            simp [List.find?_cons, he]
          rw [h1, if_neg (fun hh => he hh.symm)]
          rfl
      · simp [hf]

/-! ## `gptdiff_apply.py`: the `main` control flow

The external library calls and the filesystem are oracles in `GEnv`; the
parsed command line is `GArgs` (`stdinGoal = none` models an interactive
tty with no piped stdin).  The cosmetic heartbeat thread (lines 154–164)
only prints elapsed-time lines and is not modelled; the base64 image
payload itself is not inspected by any later step of the script, so image
handling is modelled down to its existence checks and warnings. -/

structure GArgs where
  goal : Option String
  stdinGoal : Option String
  model : Option String
  dirs : List RawPath
  files : List RawPath
  images : List RawPath
  dryRun : Bool
  verbose : Bool
deriving DecidableEq, Repr

structure GEnv where
  cwd : List String
  isDir : List String → Bool
  isFile : List String → Bool
  loadProjectFiles : List String → List (RawPath × String)
  readFile : List String → Except String String
  readImage : List String → Except String Unit
  buildEnvironment : List (RawPath × String) → String
  generateDiff : String → String → Except String String
  smartapply : String → List (RawPath × String) → Except String (List (RawPath × String))

/-- Observable outcome of one run of `gptdiff_apply.py`:`main`. -/
structure GOutcome where
  exitCode : Nat
  stdout : List String
  stderr : List String
  loads : List (List String)
  generateCalled : Bool
  applyCalled : Bool
  writes : List (RawPath × String)
  skipped : List RawPath
deriving DecidableEq, Repr

/-- Lines 40–47: the goal comes from the positional argument if non-empty,
else from (stripped) stdin when stdin is not a tty. -/
def goalResolved (args : GArgs) : Option String :=
  match args.goal with
  | some g => if g ≠ "" then some g else args.stdinGoal.map pyStrip
  | none => args.stdinGoal.map pyStrip

/-- Lines 53–55: default to the current directory when no target at all
was named. -/
def effectiveDirs (args : GArgs) : List RawPath :=
  if args.dirs = [] ∧ args.files = [] then [⟨false, ["."]⟩] else args.dirs

/-- Lines 57–64: resolve each `--dir` and fail on the first one that is
not an existing directory. -/
def validateDirs (env : GEnv) : List RawPath → Except String (List (List String))
  | [] => .ok []
  | d :: ds =>
      let td := abspath env.cwd d
      if env.isDir td then (validateDirs env ds).map (fun l => td :: l)
      else .error ("Error: Target directory does not exist: " ++ renderAbs td)

/-- Lines 66–73: resolve each `--file` and fail on the first one that is
not an existing file. -/
def validateFiles (env : GEnv) : List RawPath → Except String (List (List String))
  | [] => .ok []
  | f :: fs =>
      let tf := abspath env.cwd f
      if env.isFile tf then (validateFiles env fs).map (fun l => tf :: l)
      else .error ("Error: Target file does not exist: " ++ renderAbs tf)

/-- Lines 90–94: merge the per-directory listings into one dict, in
directory order. -/
def gatherDirs (env : GEnv) (tds : List (List String)) : List (RawPath × String) :=
  tds.foldl (fun dc td => (env.loadProjectFiles td).foldl
    (fun dc2 e => dictInsert dc2 e.1 e.2) dc) []

/-- Lines 87–102: directories first, then individual target files (keyed
by their absolute path), collecting warnings for unreadable files. -/
def gatherG (env : GEnv) (tds tfs : List (List String)) :
    List (RawPath × String) × List String :=
  tfs.foldl (fun st tf =>
    match env.readFile tf with
    | .ok c => (dictInsert st.1 ⟨true, tf⟩ c, st.2)
    | .error e =>
        (st.1, st.2 ++ ["Warning: Could not read file " ++ renderAbs tf ++ ": " ++ e]))
    (gatherDirs env tds, [])

/-- Lines 116–148: image handling down to its warnings. -/
def imageLines (env : GEnv) (verbose : Bool) (imgs : List RawPath) : List String :=
  imgs.flatMap (fun ip =>
    let a := abspath env.cwd ip
    if !env.isFile a then ["Warning: Image file does not exist: " ++ renderAbs a]
    else
      match env.readImage a with
      | .ok _ => if verbose then ["Loaded image: " ++ renderAbs a] else []
      | .error e => ["Warning: Could not load image " ++ renderAbs a ++ ": " ++ e])

/-- The `"-" * 60` separator around the printed diff. -/
def divider : String :=
  String.mk (List.replicate 60 '-')

/-- Lines 75–81: the verbose preamble. -/
def verboseHeader (args : GArgs) (tds tfs : List (List String)) (goal : String) :
    List String :=
  if args.verbose then
    (if tds ≠ [] then
      ["Target directories: " ++ String.intercalate ", " (tds.map renderAbs)] else []) ++
    (if tfs ≠ [] then
      ["Target files: " ++ String.intercalate ", " (tfs.map renderAbs)] else []) ++
    ["Model: " ++ args.model.getD "default",
     "Goal length: ~" ++ toString (goal.length / 4) ++ " tokens"]
  else []

/-- `main` of `gptdiff_apply.py`, lines 29–296, as a function from the
oracle environment and parsed arguments to the run's observable outcome. -/
def mainG (env : GEnv) (args : GArgs) : GOutcome :=
  match goalResolved args with
  | none =>
      { exitCode := 1, stdout := [],
        stderr := ["Error: Goal is required (provide as argument or via stdin)"],
        loads := [], generateCalled := false, applyCalled := false,
        writes := [], skipped := [] }
  | some goal =>
    if goal = "" then
      { exitCode := 1, stdout := [], stderr := ["Error: Goal cannot be empty"],
        loads := [], generateCalled := false, applyCalled := false,
        writes := [], skipped := [] }
    else
      match validateDirs env (effectiveDirs args) with
      | .error m =>
          { exitCode := 1, stdout := [], stderr := [m], loads := [],
            generateCalled := false, applyCalled := false, writes := [], skipped := [] }
      | .ok tds =>
        match validateFiles env args.files with
        | .error m =>
            { exitCode := 1, stdout := [], stderr := [m], loads := [],
              generateCalled := false, applyCalled := false, writes := [], skipped := [] }
        | .ok tfs =>
          let hdr := verboseHeader args tds tfs goal
          let loadingLine := if args.verbose then ["Loading project files..."] else []
          let fw := gatherG env tds tfs
          let files := fw.1
          let loadedLine :=
            if files.isEmpty then ["Warning: No files loaded from targets"]
            else if args.verbose then ["Loaded " ++ toString files.length ++ " files"]
            else []
          let environment := env.buildEnvironment files
          let envLine := if args.verbose then
              ["Environment size: ~" ++ toString (environment.length / 4) ++ " tokens"]
            else []
          let pre := hdr ++ loadingLine ++ fw.2 ++ loadedLine ++ envLine ++
            imageLines env args.verbose args.images ++ ["Sending to LLM..."]
          match env.generateDiff environment goal with
          | .error e =>
              { exitCode := 1, stdout := [],
                stderr := pre ++ ["Error generating diff: " ++ e],
                loads := tds, generateCalled := true, applyCalled := false,
                writes := [], skipped := [] }
          | .ok diff_text =>
            let pre2 := pre ++ ["Response received"]
            if pyStrip diff_text = "" then
              { exitCode := 0, stdout := [],
                stderr := pre2 ++ ["No changes generated"],
                loads := tds, generateCalled := true, applyCalled := false,
                writes := [], skipped := [] }
            else
              let diffBlock := if args.verbose || args.dryRun then
                  ["Generated diff:", divider, diff_text, divider] else []
              if args.dryRun then
                { exitCode := 0, stdout := [],
                  stderr := pre2 ++ diffBlock ++ ["Dry run - not applying changes"],
                  loads := tds, generateCalled := true, applyCalled := false,
                  writes := [], skipped := [] }
              else
                let applyLine := if args.verbose then ["Applying diff..."] else []
                match env.smartapply diff_text files with
                | .error e =>
                    { exitCode := 1, stdout := [],
                      stderr := pre2 ++ diffBlock ++ applyLine ++
                        ["Error applying diff: " ++ e],
                      loads := tds, generateCalled := true, applyCalled := true,
                      writes := [], skipped := [] }
                | .ok updated =>
                  let savingLine := if args.verbose then ["Saving files..."] else []
                  let sres := saveFilesLoop env.cwd tds tfs updated
                  let savedLines := if args.verbose then
                      (updated.filter (fun e =>
                        (is_within_targets env.cwd tds tfs (resolveKey env.cwd e.1)).1)).map
                        (fun e => "  Saved: " ++ renderPath e.1)
                    else []
                  let cres := countChanges env.cwd tds tfs files updated
                  let listLines := if args.verbose || 0 < cres.changed + cres.newCount then
                      cres.newPaths.map (fun p => "  + " ++ renderPath p) ++
                      cres.changedPaths.map (fun p => "  M " ++ renderPath p)
                    else []
                  { exitCode := 0,
                    stdout := ["Applied changes: " ++ toString cres.changed ++
                      " modified, " ++ toString cres.newCount ++ " new files"],
                    stderr := pre2 ++ diffBlock ++ applyLine ++ savingLine ++
                      savedLines ++ skippedWarnLines sres.skipped ++ listLines,
                    loads := tds, generateCalled := true, applyCalled := true,
                    writes := sres.writes, skipped := sres.skipped }

/-! ## Claim theorems -/

theorem iw_false_of_outside (cwd : List String) (tdirs tfiles : List (List String))
    (q : RawPath)
    (hdirs : ∀ td ∈ tdirs, ¬ td <+: abspath cwd q)
    (hfiles : abspath cwd q ∉ tfiles) :
    (is_within_targets cwd tdirs tfiles q).1 = false :=
  iwCore_fst_false tdirs tfiles (abspath cwd q)
    (fun td htd => relpathStr_dotdot_of_not_prefix _ _ (hdirs td htd)) hfiles

/-- C1: an updated-mapping entry whose resolved absolute path lies outside
every scoped directory's subtree and equals no scoped individual file is
never written by the write-back loop; it is appended to the skipped list,
whose summary warning shows at most the first 5 entries plus a count of
the remainder. -/
theorem c1_out_of_scope_never_written
    (cwd : List String) (tdirs tfiles : List (List String))
    (updated : List (RawPath × String)) (p : RawPath) (c : String)
    (hmem : (p, c) ∈ updated)
    (hdirs : ∀ td ∈ tdirs, ¬ td <+: abspath cwd p)
    (hfiles : abspath cwd p ∉ tfiles) :
    (∀ w ∈ (saveFilesLoop cwd tdirs tfiles updated).writes,
        abspath cwd w.1 ≠ abspath cwd p) ∧
    p ∈ (saveFilesLoop cwd tdirs tfiles updated).skipped ∧
    skippedWarnShown (saveFilesLoop cwd tdirs tfiles updated).skipped <+:
      (saveFilesLoop cwd tdirs tfiles updated).skipped ∧
    (skippedWarnShown (saveFilesLoop cwd tdirs tfiles updated).skipped).length ≤ 5 ∧
    (skippedWarnShown (saveFilesLoop cwd tdirs tfiles updated).skipped).length +
        skippedWarnMore (saveFilesLoop cwd tdirs tfiles updated).skipped =
      (saveFilesLoop cwd tdirs tfiles updated).skipped.length := by
  have habs : (iwCore tdirs tfiles (abspath cwd p)).1 = false :=
    iw_false_of_outside cwd tdirs tfiles p hdirs hfiles
  refine ⟨?_, ?_, ?_, ?_, ?_⟩
  · intro w hw
    rw [saveFilesLoop_eq] at hw
    simp only [List.mem_filterMap] at hw
    obtain ⟨e, hme, hfe⟩ := hw
    by_cases hv : (is_within_targets cwd tdirs tfiles (resolveKey cwd e.1)).1
    · rw [if_pos hv] at hfe
      intro heq
      have h1 : abspath cwd w.1 = abspath cwd e.1 := by
        rw [← Option.some_inj.1 hfe]
        exact abspath_resolveKey cwd e.1
      have hv' : (iwCore tdirs tfiles (abspath cwd e.1)).1 = true := by
        have := abspath_resolveKey cwd e.1
        unfold is_within_targets at hv
        rw [this] at hv
        exact hv
      rw [← h1, heq] at hv'
      rw [habs] at hv'
      exact Bool.false_ne_true hv'
    · rw [if_neg hv] at hfe
      exact absurd hfe (by simp)
  · rw [saveFilesLoop_eq]
    simp only [List.mem_map, List.mem_filter]
    refine ⟨(p, c), ⟨hmem, ?_⟩, rfl⟩
    unfold is_within_targets
    rw [abspath_resolveKey, habs]
    rfl
  · exact List.take_prefix 5 _
  · rw [skippedWarnShown, List.length_take]
    exact inf_le_left
  · rw [skippedWarnShown, skippedWarnMore, List.length_take]
    rcases Nat.lt_or_ge 5 (saveFilesLoop cwd tdirs tfiles updated).skipped.length with h | h
    · rw [if_pos h]
      omega
    · rw [if_neg (by omega)]
      omega

/-- C1 witness: a concrete out-of-scope update entry is skipped, not
written. -/
theorem c1_out_of_scope_never_written_witness :
    (∀ w ∈ (saveFilesLoop [] [["t"]] [] [(⟨true, ["u", "f"]⟩, "x")]).writes,
        abspath [] w.1 ≠ abspath [] (⟨true, ["u", "f"]⟩ : RawPath)) ∧
    (⟨true, ["u", "f"]⟩ : RawPath) ∈
      (saveFilesLoop [] [["t"]] [] [(⟨true, ["u", "f"]⟩, "x")]).skipped ∧
    skippedWarnShown (saveFilesLoop [] [["t"]] [] [(⟨true, ["u", "f"]⟩, "x")]).skipped <+:
      (saveFilesLoop [] [["t"]] [] [(⟨true, ["u", "f"]⟩, "x")]).skipped ∧
    (skippedWarnShown (saveFilesLoop [] [["t"]] [] [(⟨true, ["u", "f"]⟩, "x")]).skipped).length ≤ 5 ∧
    (skippedWarnShown (saveFilesLoop [] [["t"]] [] [(⟨true, ["u", "f"]⟩, "x")]).skipped).length +
        skippedWarnMore (saveFilesLoop [] [["t"]] [] [(⟨true, ["u", "f"]⟩, "x")]).skipped =
      (saveFilesLoop [] [["t"]] [] [(⟨true, ["u", "f"]⟩, "x")]).skipped.length :=
  c1_out_of_scope_never_written [] [["t"]] [] [(⟨true, ["u", "f"]⟩, "x")]
    ⟨true, ["u", "f"]⟩ "x" (by decide) (by decide) (by decide)

/-- C2: for every pair of original and updated mappings, the reported
modified-count equals the number of in-scope updated entries whose
resolved key is present in the original mapping with different content,
and the new-count equals the number of in-scope updated entries whose
resolved key is absent from the original mapping. -/
theorem c2_counts_declarative (cwd : List String) (tds tfs : List (List String))
    (files updated : List (RawPath × String)) :
    (countChanges cwd tds tfs files updated).changed =
      (updated.filter (fun e =>
        (is_within_targets cwd tds tfs (resolveKey cwd e.1)).1 &&
          (match dictLookup files (resolveKey cwd e.1) with
           | some old => decide (old ≠ e.2)
           | none => false))).length ∧
    (countChanges cwd tds tfs files updated).newCount =
      (updated.filter (fun e =>
        (is_within_targets cwd tds tfs (resolveKey cwd e.1)).1 &&
          (dictLookup files (resolveKey cwd e.1)).isNone)).length := by
  rw [countChanges_eq]
  exact ⟨rfl, rfl⟩

/-- C9: the scope check classifies a path as inside a scoped directory
exactly when its relative-path string does not start with `".."`; hence a
file directly inside a scoped directory whose base name itself begins with
two dots is classified out of scope and skipped, not written. -/
theorem c9_dotdot_basename_skipped (cwd T : List String) (b content : String)
    (hT : ∀ c ∈ T, normalComp c = true) (hb : normalComp b = true)
    (hdots : strStartsWith b ".." = true) :
    (∀ (q : RawPath) (tds : List (List String)),
        (is_within_targets cwd tds [] q).1 = true ↔
          ∃ td ∈ tds, strStartsWith (relpathStr (abspath cwd q) td) ".." = false) ∧
    relpathStr (abspath cwd ⟨true, T ++ [b]⟩) T = b ∧
    (is_within_targets cwd [T] [] ⟨true, T ++ [b]⟩).1 = false ∧
    (saveFilesLoop cwd [T] [] [(⟨true, T ++ [b]⟩, content)]).writes = [] ∧
    (saveFilesLoop cwd [T] [] [(⟨true, T ++ [b]⟩, content)]).skipped =
      [⟨true, T ++ [b]⟩] := by
  have hnorm : abspath cwd ⟨true, T ++ [b]⟩ = T ++ [b] := by
    unfold abspath
    rw [if_pos rfl]
    exact normComps_of_normal _ (by
      intro c hc
      rcases List.mem_append.1 hc with h | h
      · exact hT c h
      · rw [List.mem_singleton.1 h]; exact hb)
  have hrel : relpathStr (abspath cwd ⟨true, T ++ [b]⟩) T = b := by
    rw [hnorm]
    unfold relpathStr
    rw [relpathComps_append]
    simp [joinSlash]
  have hfalse : (is_within_targets cwd [T] [] ⟨true, T ++ [b]⟩).1 = false := by
    unfold is_within_targets
    refine iwCore_fst_false _ _ _ ?_ (by simp)
    intro td htd
    rw [List.mem_singleton.1 htd, hrel]
    exact hdots
  refine ⟨?_, hrel, hfalse, ?_, ?_⟩
  · intro q tds
    unfold is_within_targets
    rw [iwCore_fst_true_iff]
    simp
  · rw [saveFilesLoop_eq]
    have : resolveKey cwd ⟨true, T ++ [b]⟩ = ⟨true, T ++ [b]⟩ := by
      unfold resolveKey; rw [if_pos rfl]
    simp [this, hfalse]
  · rw [saveFilesLoop_eq]
    have : resolveKey cwd ⟨true, T ++ [b]⟩ = ⟨true, T ++ [b]⟩ := by
      unfold resolveKey; rw [if_pos rfl]
    simp [this, hfalse]

/-- C9 witness: `/t/..config` directly inside scoped `/t` is skipped. -/
theorem c9_dotdot_basename_skipped_witness :
    (∀ (q : RawPath) (tds : List (List String)),
        (is_within_targets [] tds [] q).1 = true ↔
          ∃ td ∈ tds, strStartsWith (relpathStr (abspath [] q) td) ".." = false) ∧
    relpathStr (abspath [] ⟨true, ["t"] ++ ["..config"]⟩) ["t"] = "..config" ∧
    (is_within_targets [] [["t"]] [] ⟨true, ["t"] ++ ["..config"]⟩).1 = false ∧
    (saveFilesLoop [] [["t"]] [] [(⟨true, ["t"] ++ ["..config"]⟩, "v")]).writes = [] ∧
    (saveFilesLoop [] [["t"]] [] [(⟨true, ["t"] ++ ["..config"]⟩, "v")]).skipped =
      [⟨true, ["t"] ++ ["..config"]⟩] :=
  c9_dotdot_basename_skipped [] ["t"] "..config" "v"
    (by decide) (by decide) (by decide)

/-- Shared concrete run environment for witnesses: one valid target
directory `/t` holding one loaded file. -/
def wEnv : GEnv :=
  { cwd := []
    isDir := fun c => c = ["t"]
    isFile := fun _ => false
    loadProjectFiles := fun _ => [(⟨true, ["t", "a.py"]⟩, "x")]
    readFile := fun _ => Except.error "unreadable"
    readImage := fun _ => Except.ok ()
    buildEnvironment := fun _ => "ENV"
    generateDiff := fun _ _ => Except.ok ""
    smartapply := fun _ _ => Except.ok [] }

/-- Shared concrete argument vector for witnesses. -/
def wArgs : GArgs :=
  { goal := some "g", stdinGoal := none, model := none,
    dirs := [⟨true, ["t"]⟩], files := [], images := [],
    dryRun := false, verbose := false }

/-- C3: when the diff-generation call returns an empty or whitespace-only
string, the run prints the no-changes message, never calls the apply
function, writes nothing, and exits 0. -/
theorem c3_empty_diff_exits_zero
    (env : GEnv) (args : GArgs) (g d : String) (tds tfs : List (List String))
    (hg : goalResolved args = some g) (hgne : g ≠ "")
    (hd : validateDirs env (effectiveDirs args) = Except.ok tds)
    (hf : validateFiles env args.files = Except.ok tfs)
    (hgen : ∀ e go, env.generateDiff e go = Except.ok d)
    (hempty : pyStrip d = "") :
    (mainG env args).exitCode = 0 ∧
    "No changes generated" ∈ (mainG env args).stderr ∧
    (mainG env args).applyCalled = false ∧
    (mainG env args).writes = [] := by
  simp only [mainG, hg, hd, hf, hgen, hempty, if_neg hgne]
  simp

/-- C3 witness. -/
theorem c3_empty_diff_exits_zero_witness :
    (mainG { wEnv with generateDiff := fun _ _ => Except.ok "  \n " } wArgs).exitCode = 0 ∧
    "No changes generated" ∈
      (mainG { wEnv with generateDiff := fun _ _ => Except.ok "  \n " } wArgs).stderr ∧
    (mainG { wEnv with generateDiff := fun _ _ => Except.ok "  \n " } wArgs).applyCalled = false ∧
    (mainG { wEnv with generateDiff := fun _ _ => Except.ok "  \n " } wArgs).writes = [] :=
  c3_empty_diff_exits_zero _ wArgs "g" "  \n " [["t"]] []
    rfl (by decide) rfl rfl (fun _ _ => rfl) (by decide)

/-- C10: with `--dry-run` and a non-empty generated diff, the run prints
the diff, exits 0, never calls the apply function and writes nothing. -/
theorem c10_dry_run_never_applies
    (env : GEnv) (args : GArgs) (g d : String) (tds tfs : List (List String))
    (hg : goalResolved args = some g) (hgne : g ≠ "")
    (hd : validateDirs env (effectiveDirs args) = Except.ok tds)
    (hf : validateFiles env args.files = Except.ok tfs)
    (hgen : ∀ e go, env.generateDiff e go = Except.ok d)
    (hne : pyStrip d ≠ "") (hdry : args.dryRun = true) :
    (mainG env args).exitCode = 0 ∧
    d ∈ (mainG env args).stderr ∧
    "Dry run - not applying changes" ∈ (mainG env args).stderr ∧
    (mainG env args).applyCalled = false ∧
    (mainG env args).writes = [] := by
  simp only [mainG, hg, hd, hf, hgen, hdry, if_neg hgne, if_neg hne]
  simp

/-- C10 witness. -/
theorem c10_dry_run_never_applies_witness :
    (mainG { wEnv with generateDiff := fun _ _ => Except.ok "DIFF" }
        { wArgs with dryRun := true }).exitCode = 0 ∧
    "DIFF" ∈ (mainG { wEnv with generateDiff := fun _ _ => Except.ok "DIFF" }
        { wArgs with dryRun := true }).stderr ∧
    "Dry run - not applying changes" ∈
      (mainG { wEnv with generateDiff := fun _ _ => Except.ok "DIFF" }
        { wArgs with dryRun := true }).stderr ∧
    (mainG { wEnv with generateDiff := fun _ _ => Except.ok "DIFF" }
        { wArgs with dryRun := true }).applyCalled = false ∧
    (mainG { wEnv with generateDiff := fun _ _ => Except.ok "DIFF" }
        { wArgs with dryRun := true }).writes = [] :=
  c10_dry_run_never_applies _ _ "g" "DIFF" [["t"]] []
    rfl (by decide) rfl rfl (fun _ _ => rfl) (by decide) rfl

/-- C5: when the delegated diff-generation call raises (`genFails = true`)
or the delegated apply call raises (`genFails = false`), the run prints an
error message containing the underlying exception text, exits 1, and
performs no write-back; after a generation failure the apply function is
never called. -/
theorem c5_delegated_failure_fatal
    (env : GEnv) (args : GArgs) (g d err : String) (tds tfs : List (List String))
    (genFails : Bool)
    (hg : goalResolved args = some g) (hgne : g ≠ "")
    (hd : validateDirs env (effectiveDirs args) = Except.ok tds)
    (hf : validateFiles env args.files = Except.ok tfs)
    (hcase : if genFails = true then
        ∀ e go, env.generateDiff e go = Except.error err
      else
        (∀ e go, env.generateDiff e go = Except.ok d) ∧ pyStrip d ≠ "" ∧
          args.dryRun = false ∧
          ∀ t fl, env.smartapply t fl = Except.error err) :
    (mainG env args).exitCode = 1 ∧
    (mainG env args).writes = [] ∧
    ((if genFails = true then "Error generating diff: " else "Error applying diff: ")
        ++ err) ∈ (mainG env args).stderr ∧
    (mainG env args).applyCalled = !genFails := by
  cases genFails with
  | true =>
      rw [if_pos rfl] at hcase
      simp only [mainG, hg, hd, hf, hcase, if_neg hgne]
      simp
  | false =>
      rw [if_neg (by simp)] at hcase
      obtain ⟨hgen, hne, hdry, happ⟩ := hcase
      simp only [mainG, hg, hd, hf, hgen, happ, hdry, if_neg hgne, if_neg hne]
      simp

/-- C5 witness (generation-failure case). -/
theorem c5_delegated_failure_fatal_witness :
    (mainG { wEnv with generateDiff := fun _ _ => Except.error "boom" } wArgs).exitCode = 1 ∧
    (mainG { wEnv with generateDiff := fun _ _ => Except.error "boom" } wArgs).writes = [] ∧
    ((if true = true then "Error generating diff: " else "Error applying diff: ")
        ++ "boom") ∈
      (mainG { wEnv with generateDiff := fun _ _ => Except.error "boom" } wArgs).stderr ∧
    (mainG { wEnv with generateDiff := fun _ _ => Except.error "boom" } wArgs).applyCalled
      = !true :=
  c5_delegated_failure_fatal _ wArgs "g" "" "boom" [["t"]] [] true
    rfl (by decide) rfl rfl (by rw [if_pos rfl]; exact fun _ _ => rfl)

/-! ## `prepare_context.py`: the `main` control flow (lines 22–92)

Validation is interleaved with loading here: each `--dir` is checked and
then immediately loaded before the next one is looked at.  Output
serialization (`json.dumps` / `build_environment` printing) is not
inspected by any claim; the outcome records whether the final output step
was reached (`produced`) together with the merged dict itself. -/

structure PArgs where
  dirs : List RawPath
  files : List RawPath
  listOnly : Bool
  json : Bool
deriving DecidableEq, Repr

structure PEnv where
  cwd : List String
  isDir : List String → Bool
  isFile : List String → Bool
  loadProjectFiles : List String → List (RawPath × String)
  readFile : List String → Except String String

structure POutcome where
  exitCode : Nat
  stderr : List String
  loads : List (List String)
  filesDict : List (String × String)
  produced : Bool
deriving DecidableEq, Repr

/-- `os.path.join(a, b)` for one join step (`b` absolute wins). -/
def joinPath (a b : String) : String :=
  if strStartsWith b "/" then b
  else if a = "" then b
  else a ++ "/" ++ b

/-- Lines 50–59: the dict key for a loaded file — the path relative to the
target directory, prefixed with the target directory's base name when that
is neither empty nor `"."`. -/
def prepKey (cwd : List String) (td : List String) (p : RawPath) : String :=
  let rel := relpathStr (abspath cwd p) td
  match td.getLast? with
  | some b => if b ≠ "" ∧ b ≠ "." then joinPath b rel else rel
  | none => rel

/-- Lines 39–59: validate and load each target directory in order,
stopping with an error (and the loads performed so far) at the first
missing one. -/
def prepGatherDirs (env : PEnv) :
    List RawPath → List (String × String) → List (List String) →
    Except (String × List (String × String) × List (List String))
      (List (String × String) × List (List String))
  | [], dict, loads => .ok (dict, loads)
  | d :: ds, dict, loads =>
      let td := abspath env.cwd d
      if env.isDir td then
        let dict' := (env.loadProjectFiles td).foldl
          (fun dc e => dictInsert dc (prepKey env.cwd td e.1) e.2) dict
        prepGatherDirs env ds dict' (loads ++ [td])
      else
        .error ("Error: Target directory does not exist: " ++ renderAbs td,
          dict, loads)

/-- Lines 62–74: validate and read each target file in order, keyed by its
base name; unreadable files produce a warning and are skipped. -/
def prepGatherFiles (env : PEnv) :
    List RawPath → List (String × String) → List String →
    Except (String × List (String × String) × List String)
      (List (String × String) × List String)
  | [], dict, warns => .ok (dict, warns)
  | f :: fs, dict, warns =>
      let tf := abspath env.cwd f
      if env.isFile tf then
        match env.readFile tf with
        | .ok c =>
            prepGatherFiles env fs (dictInsert dict (tf.getLast?.getD "") c) warns
        | .error e =>
            prepGatherFiles env fs dict
              (warns ++ ["Warning: Could not read file " ++ renderAbs tf ++ ": " ++ e])
      else
        .error ("Error: Target file does not exist: " ++ renderAbs tf, dict, warns)

/-- `main` of `prepare_context.py` as a function to the observable
outcome. -/
def prepareMain (env : PEnv) (args : PArgs) : POutcome :=
  let dirsEff := if args.dirs = [] ∧ args.files = [] then [⟨false, ["."]⟩] else args.dirs
  match prepGatherDirs env dirsEff [] [] with
  | .error (m, dict, loads) =>
      { exitCode := 1, stderr := [m], loads := loads, filesDict := dict,
        produced := false }
  | .ok (dict, loads) =>
      match prepGatherFiles env args.files dict [] with
      | .error (m, dict', warns) =>
          { exitCode := 1, stderr := warns ++ [m], loads := loads,
            filesDict := dict', produced := false }
      | .ok (dict', warns) =>
          { exitCode := 0, stderr := warns, loads := loads,
            filesDict := dict', produced := true }

/-! ## Lemmas about target validation and gathering -/

theorem validateDirs_error_shape (env : GEnv) (ds : List RawPath) (m : String)
    (h : validateDirs env ds = Except.error m) :
    ∃ td, m = "Error: Target directory does not exist: " ++ renderAbs td := by
  induction ds with
  | nil => exact absurd h (by simp [validateDirs])
  | cons d ds ih =>
      rw [validateDirs] at h
      by_cases hd : env.isDir (abspath env.cwd d)
      · rw [if_pos hd] at h
        rcases hr : validateDirs env ds with m' | tds
        · rw [hr] at h
          have hm : m' = m := by simpa [Except.map] using h
          rw [hm] at hr
          exact ih hr
        · rw [hr] at h
          exact absurd h (by simp [Except.map])
      · rw [if_neg hd] at h
        have hm : m = "Error: Target directory does not exist: " ++
            renderAbs (abspath env.cwd d) := by simpa using h.symm
        exact ⟨abspath env.cwd d, hm⟩

theorem validateFiles_error_shape (env : GEnv) (fs : List RawPath) (m : String)
    (h : validateFiles env fs = Except.error m) :
    ∃ tf, m = "Error: Target file does not exist: " ++ renderAbs tf := by
  induction fs with
  | nil => exact absurd h (by simp [validateFiles])
  | cons f fs ih =>
      rw [validateFiles] at h
      by_cases hf : env.isFile (abspath env.cwd f)
      · rw [if_pos hf] at h
        rcases hr : validateFiles env fs with m' | tfs
        · rw [hr] at h
          have hm : m' = m := by simpa [Except.map] using h
          rw [hm] at hr
          exact ih hr
        · rw [hr] at h
          exact absurd h (by simp [Except.map])
      · rw [if_neg hf] at h
        have hm : m = "Error: Target file does not exist: " ++
            renderAbs (abspath env.cwd f) := by simpa using h.symm
        exact ⟨abspath env.cwd f, hm⟩

theorem validateDirs_ok_all (env : GEnv) (ds : List RawPath) (tds : List (List String))
    (h : validateDirs env ds = Except.ok tds) :
    ∀ d ∈ ds, env.isDir (abspath env.cwd d) = true := by
  induction ds generalizing tds with
  | nil => intro d hd; exact absurd hd (by simp)
  | cons d ds ih =>
      intro x hx
      rw [validateDirs] at h
      by_cases hd : env.isDir (abspath env.cwd d)
      · rcases List.mem_cons.1 hx with rfl | hx'
        · exact hd
        · rw [if_pos hd] at h
          rcases hr : validateDirs env ds with m' | tds'
          · rw [hr] at h; exact absurd h (by simp [Except.map])
          · exact ih tds' hr x hx'
      · rw [if_neg hd] at h
        exact absurd h (by simp)

theorem validateFiles_ok_all (env : GEnv) (fs : List RawPath) (tfs : List (List String))
    (h : validateFiles env fs = Except.ok tfs) :
    ∀ f ∈ fs, env.isFile (abspath env.cwd f) = true := by
  induction fs generalizing tfs with
  | nil => intro f hf; exact absurd hf (by simp)
  | cons f fs ih =>
      intro x hx
      rw [validateFiles] at h
      by_cases hf : env.isFile (abspath env.cwd f)
      · rcases List.mem_cons.1 hx with rfl | hx'
        · exact hf
        · rw [if_pos hf] at h
          rcases hr : validateFiles env fs with m' | tfs'
          · rw [hr] at h; exact absurd h (by simp [Except.map])
          · exact ih tfs' hr x hx'
      · rw [if_neg hf] at h
        exact absurd h (by simp)

theorem prepGatherDirs_error_shape (env : PEnv) (ds : List RawPath)
    (dict : List (String × String)) (loads : List (List String))
    (m : String) (dict' : List (String × String)) (loads' : List (List String))
    (h : prepGatherDirs env ds dict loads = Except.error (m, dict', loads')) :
    ∃ td, m = "Error: Target directory does not exist: " ++ renderAbs td := by
  induction ds generalizing dict loads with
  | nil => exact absurd h (by simp [prepGatherDirs])
  | cons d ds ih =>
      rw [prepGatherDirs] at h
      by_cases hd : env.isDir (abspath env.cwd d)
      · rw [if_pos hd] at h
        exact ih _ _ h
      · rw [if_neg hd] at h
        have h2 : ("Error: Target directory does not exist: " ++
            renderAbs (abspath env.cwd d), dict, loads) = (m, dict', loads') := by
          simpa using h
        exact ⟨abspath env.cwd d, (congrArg Prod.fst h2).symm⟩

theorem prepGatherDirs_error_of_bad (env : PEnv) (ds : List RawPath)
    (hbad : ∃ d ∈ ds, env.isDir (abspath env.cwd d) = false) :
    ∀ dict loads, ∃ m dict' loads',
      prepGatherDirs env ds dict loads = Except.error (m, dict', loads') := by
  induction ds with
  | nil => exact absurd hbad (by simp)
  | cons d ds ih =>
      intro dict loads
      by_cases hd : env.isDir (abspath env.cwd d)
      · obtain ⟨x, hx, hxf⟩ := hbad
        rcases List.mem_cons.1 hx with rfl | hx'
        · rw [hd] at hxf; exact absurd hxf (by simp)
        · obtain ⟨m, dict', loads', hr⟩ := ih ⟨x, hx', hxf⟩
            ((env.loadProjectFiles (abspath env.cwd d)).foldl
              (fun dc e => dictInsert dc (prepKey env.cwd (abspath env.cwd d) e.1) e.2) dict)
            (loads ++ [abspath env.cwd d])
          exact ⟨m, dict', loads', by rw [prepGatherDirs, if_pos hd]; exact hr⟩
      · exact ⟨_, _, _, by rw [prepGatherDirs, if_neg hd]⟩

theorem prepGatherFiles_error_shape (env : PEnv) (fs : List RawPath)
    (dict : List (String × String)) (warns : List String)
    (m : String) (dict' : List (String × String)) (warns' : List String)
    (h : prepGatherFiles env fs dict warns = Except.error (m, dict', warns')) :
    ∃ tf, m = "Error: Target file does not exist: " ++ renderAbs tf := by
  induction fs generalizing dict warns with
  | nil => exact absurd h (by simp [prepGatherFiles])
  | cons f fs ih =>
      rw [prepGatherFiles] at h
      by_cases hf : env.isFile (abspath env.cwd f)
      · rw [if_pos hf] at h
        rcases hr : env.readFile (abspath env.cwd f) with e | c
        · rw [hr] at h
          exact ih _ _ h
        · rw [hr] at h
          exact ih _ _ h
      · rw [if_neg hf] at h
        have h2 : ("Error: Target file does not exist: " ++
            renderAbs (abspath env.cwd f), dict, warns) = (m, dict', warns') := by
          simpa using h
        exact ⟨abspath env.cwd f, (congrArg Prod.fst h2).symm⟩

theorem prepGatherFiles_error_of_bad (env : PEnv) (fs : List RawPath)
    (hbad : ∃ f ∈ fs, env.isFile (abspath env.cwd f) = false) :
    ∀ dict warns, ∃ m dict' warns',
      prepGatherFiles env fs dict warns = Except.error (m, dict', warns') := by
  induction fs with
  | nil => exact absurd hbad (by simp)
  | cons f fs ih =>
      intro dict warns
      by_cases hf : env.isFile (abspath env.cwd f)
      · obtain ⟨x, hx, hxf⟩ := hbad
        rcases List.mem_cons.1 hx with rfl | hx'
        · rw [hf] at hxf; exact absurd hxf (by simp)
        · rcases hr : env.readFile (abspath env.cwd f) with e | c
          · obtain ⟨m, dict', warns', hrec⟩ := ih ⟨x, hx', hxf⟩ dict
              (warns ++ ["Warning: Could not read file " ++
                renderAbs (abspath env.cwd f) ++ ": " ++ e])
            exact ⟨m, dict', warns', by
              rw [prepGatherFiles, if_pos hf, hr]; exact hrec⟩
          · obtain ⟨m, dict', warns', hrec⟩ := ih ⟨x, hx', hxf⟩
              (dictInsert dict ((abspath env.cwd f).getLast?.getD "") c) warns
            exact ⟨m, dict', warns', by
              rw [prepGatherFiles, if_pos hf, hr]; exact hrec⟩
      · exact ⟨_, _, _, by rw [prepGatherFiles, if_neg hf]⟩

/-- A stderr line reporting a missing target. -/
def doesNotExistMsg (m : String) : Bool :=
  strStartsWith m "Error: Target directory does not exist: " ||
  strStartsWith m "Error: Target file does not exist: "

/-- C6 (amended): a missing named target makes either script print a
does-not-exist error and exit 1 with no output produced; in
`gptdiff_apply` this happens before any file loading, diff generation or
write-back, while in `prepare_context` validation is interleaved with
loading, so earlier directories may already have been loaded. -/
theorem c6_missing_target_exits_one
    (env : GEnv) (args : GArgs) (g : String)
    (penv : PEnv) (pargs : PArgs)
    (hg : goalResolved args = some g) (hgne : g ≠ "")
    (hbadG : (∃ d ∈ effectiveDirs args, env.isDir (abspath env.cwd d) = false) ∨
             (∃ f ∈ args.files, env.isFile (abspath env.cwd f) = false))
    (hbadP : (∃ d ∈ (if pargs.dirs = [] ∧ pargs.files = []
                  then [(⟨false, ["."]⟩ : RawPath)] else pargs.dirs),
                penv.isDir (abspath penv.cwd d) = false) ∨
             (∃ f ∈ pargs.files, penv.isFile (abspath penv.cwd f) = false)) :
    ((mainG env args).exitCode = 1 ∧
     (mainG env args).loads = [] ∧
     (mainG env args).generateCalled = false ∧
     (mainG env args).applyCalled = false ∧
     (mainG env args).writes = [] ∧
     (mainG env args).stderr.any doesNotExistMsg = true) ∧
    ((prepareMain penv pargs).exitCode = 1 ∧
     (prepareMain penv pargs).produced = false ∧
     (prepareMain penv pargs).stderr.any doesNotExistMsg = true) := by
  constructor
  · rcases hvd : validateDirs env (effectiveDirs args) with m | tds
    · obtain ⟨td, hm⟩ := validateDirs_error_shape env _ m hvd
      simp only [mainG, hg, if_neg hgne, hvd]
      simp [doesNotExistMsg, hm, strStartsWith_append]
    · have hdirsok := validateDirs_ok_all env _ tds hvd
      rcases hbadG with ⟨d, hd, hdf⟩ | ⟨f, hf, hff⟩
      · rw [hdirsok d hd] at hdf
        exact absurd hdf (by simp)
      · rcases hvf : validateFiles env args.files with m | tfs
        · obtain ⟨tf, hm⟩ := validateFiles_error_shape env _ m hvf
          simp only [mainG, hg, if_neg hgne, hvd, hvf]
          simp [doesNotExistMsg, hm, strStartsWith_append]
        · have := validateFiles_ok_all env _ tfs hvf f hf
          rw [this] at hff
          exact absurd hff (by simp)
  · rcases hpd : prepGatherDirs penv
        (if pargs.dirs = [] ∧ pargs.files = []
          then [(⟨false, ["."]⟩ : RawPath)] else pargs.dirs) [] [] with
      ⟨m, dict', loads'⟩ | ⟨dict, loads⟩
    · obtain ⟨td, hm⟩ := prepGatherDirs_error_shape penv _ [] [] m dict' loads' hpd
      simp only [prepareMain, hpd]
      simp [doesNotExistMsg, hm, strStartsWith_append]
    · rcases hbadP with hbd | ⟨f, hf, hff⟩
      · obtain ⟨m, dict', loads', herr⟩ :=
          prepGatherDirs_error_of_bad penv _ hbd [] []
        rw [herr] at hpd
        exact absurd hpd (by simp)
      · obtain ⟨m, dict', warns', herr2⟩ :=
          prepGatherFiles_error_of_bad penv _ ⟨f, hf, hff⟩ dict []
        obtain ⟨tf, hm⟩ := prepGatherFiles_error_shape penv _ dict [] m dict' warns' herr2
        simp only [prepareMain, hpd, herr2]
        simp [doesNotExistMsg, hm, strStartsWith_append]

/-- Concrete prepare-context run: first directory `/ok` valid, second
directory `/bad` missing. -/
def cexPEnv : PEnv :=
  { cwd := []
    isDir := fun c => c = ["ok"]
    isFile := fun _ => false
    loadProjectFiles := fun _ => [(⟨true, ["ok", "f.txt"]⟩, "z")]
    readFile := fun _ => Except.ok "c" }

def cexPArgs : PArgs :=
  { dirs := [⟨true, ["ok"]⟩, ⟨true, ["bad"]⟩], files := [],
    listOnly := false, json := false }

/-- C6 counterexample: `prepare_context.py` exits 1 on the missing second
directory, but the first directory has already been loaded — the exit does
not happen before all file loading. -/
theorem c6_counterexample_prepare_loads_first :
    (prepareMain cexPEnv cexPArgs).exitCode = 1 ∧
    (prepareMain cexPEnv cexPArgs).stderr =
      ["Error: Target directory does not exist: /bad"] ∧
    (prepareMain cexPEnv cexPArgs).loads = [["ok"]] ∧
    ¬ (prepareMain cexPEnv cexPArgs).loads = [] := by
  decide

/-- C6 witness. -/
theorem c6_missing_target_exits_one_witness :
    ((mainG { wEnv with isDir := fun _ => false } wArgs).exitCode = 1 ∧
     (mainG { wEnv with isDir := fun _ => false } wArgs).loads = [] ∧
     (mainG { wEnv with isDir := fun _ => false } wArgs).generateCalled = false ∧
     (mainG { wEnv with isDir := fun _ => false } wArgs).applyCalled = false ∧
     (mainG { wEnv with isDir := fun _ => false } wArgs).writes = [] ∧
     (mainG { wEnv with isDir := fun _ => false } wArgs).stderr.any doesNotExistMsg
       = true) ∧
    ((prepareMain cexPEnv cexPArgs).exitCode = 1 ∧
     (prepareMain cexPEnv cexPArgs).produced = false ∧
     (prepareMain cexPEnv cexPArgs).stderr.any doesNotExistMsg = true) :=
  c6_missing_target_exits_one { wEnv with isDir := fun _ => false } wArgs "g"
    cexPEnv cexPArgs rfl (by decide)
    (Or.inl ⟨⟨true, ["t"]⟩, by decide, rfl⟩)
    (Or.inl ⟨⟨true, ["bad"]⟩, by decide, rfl⟩)

/-! ## C4: the gathered mapping and its overwrite semantics -/

/-- The individual-file entries of `gptdiff_apply.py`'s gather step, in
order, keyed by the files' absolute paths. -/
def gFileEntries (env : GEnv) (tfs : List (List String)) :
    List (RawPath × String) :=
  tfs.filterMap (fun tf =>
    match env.readFile tf with
    | .ok c => some (⟨true, tf⟩, c)
    | .error _ => none)

/-- The full load sequence of `gptdiff_apply.py`'s gather step:
directories in order, then individual files. -/
def gEntries (env : GEnv) (tds tfs : List (List String)) :
    List (RawPath × String) :=
  (tds.map env.loadProjectFiles).flatten ++ gFileEntries env tfs

/-- The directory entries of `prepare_context.py`'s gather step, with
their relativized keys, in order. -/
def pDirEntries (env : PEnv) (ds : List RawPath) : List (String × String) :=
  (ds.map (fun d =>
    (env.loadProjectFiles (abspath env.cwd d)).map
      (fun e => (prepKey env.cwd (abspath env.cwd d) e.1, e.2)))).flatten

/-- The individual-file entries of `prepare_context.py`'s gather step,
keyed by base name. -/
def pFileEntries (env : PEnv) (fs : List RawPath) : List (String × String) :=
  fs.filterMap (fun f =>
    match env.readFile (abspath env.cwd f) with
    | .ok c => some ((abspath env.cwd f).getLast?.getD "", c)
    | .error _ => none)

theorem lastVal_append {K V : Type} [DecidableEq K] (a b : List (K × V)) (k : K) :
    lastVal (a ++ b) k = (lastVal b k).or (lastVal a k) := by
  unfold lastVal
  rw [List.reverse_append, List.find?_append]
  rcases hf : (b.reverse.find? (fun e => decide (e.1 = k))) with _ | x
  · rw [hf]
    simp
  · rw [hf]
    simp

theorem gatherDirs_eq (env : GEnv) (tds : List (List String)) :
    gatherDirs env tds =
      ((tds.map env.loadProjectFiles).flatten).foldl
        (fun dc e => dictInsert dc e.1 e.2) [] := by
  rw [gatherDirs, List.foldl_flatten, List.foldl_map]

theorem gatherG_fst_eq (env : GEnv) (tds tfs : List (List String)) :
    (gatherG env tds tfs).1 =
      (gFileEntries env tfs).foldl (fun dc e => dictInsert dc e.1 e.2)
        (gatherDirs env tds) := by
  have key : ∀ (l : List (List String)) (d0 : List (RawPath × String))
      (w0 : List String),
      (l.foldl (fun st tf =>
        match env.readFile tf with
        | .ok c => (dictInsert st.1 ⟨true, tf⟩ c, st.2)
        | .error e =>
            (st.1, st.2 ++ ["Warning: Could not read file " ++ renderAbs tf ++ ": " ++ e]))
        (d0, w0)).1 =
      (gFileEntries env l).foldl (fun dc e => dictInsert dc e.1 e.2) d0 := by
    intro l
    induction l with
    | nil => intro d0 w0; rfl
    | cons tf l ih =>
        intro d0 w0
        rcases hr : env.readFile tf with e | c
        · simp only [List.foldl_cons, hr, gFileEntries, List.filterMap_cons]
          exact ih d0 _
        · simp only [List.foldl_cons, hr, gFileEntries, List.filterMap_cons]
          exact ih _ w0
  exact key tfs (gatherDirs env tds) []

/-- The merged dict of `gptdiff_apply.py`'s gather step looks up to the
last-loaded value for each key. -/
theorem gatherG_lookup_last (env : GEnv) (tds tfs : List (List String))
    (k : RawPath) :
    dictLookup (gatherG env tds tfs).1 k = lastVal (gEntries env tds tfs) k := by
  rw [gatherG_fst_eq, dictLookup_foldl_insert, gatherDirs_eq,
    dictLookup_foldl_insert, gEntries, lastVal_append]
  have : dictLookup ([] : List (RawPath × String)) k = none := rfl
  rw [this, Option.or_none]

theorem prepGatherDirs_ok_eq (env : PEnv) (ds : List RawPath)
    (hds : ∀ d ∈ ds, env.isDir (abspath env.cwd d) = true) :
    ∀ dict loads, prepGatherDirs env ds dict loads =
      Except.ok ((pDirEntries env ds).foldl (fun dc e => dictInsert dc e.1 e.2) dict,
        loads ++ ds.map (fun d => abspath env.cwd d)) := by
  induction ds with
  | nil => intro dict loads; simp [prepGatherDirs, pDirEntries]
  | cons d ds ih =>
      intro dict loads
      rw [prepGatherDirs, if_pos (hds d (by simp))]
      rw [ih (fun x hx => hds x (by simp [hx]))]
      simp only [pDirEntries, List.map_cons, List.flatten_cons, List.foldl_append,
        List.map_cons, List.foldl_map, List.append_assoc, List.singleton_append]

theorem prepGatherFiles_ok_eq (env : PEnv) (fs : List RawPath)
    (hfs : ∀ f ∈ fs, env.isFile (abspath env.cwd f) = true) :
    ∀ dict warns, ∃ warns', prepGatherFiles env fs dict warns =
      Except.ok ((pFileEntries env fs).foldl (fun dc e => dictInsert dc e.1 e.2) dict,
        warns') := by
  induction fs with
  | nil => intro dict warns; exact ⟨warns, by simp [prepGatherFiles, pFileEntries]⟩
  | cons f fs ih =>
      intro dict warns
      rcases hr : env.readFile (abspath env.cwd f) with e | c
      · obtain ⟨w', hw⟩ := ih (fun x hx => hfs x (by simp [hx])) dict
          (warns ++ ["Warning: Could not read file " ++
            renderAbs (abspath env.cwd f) ++ ": " ++ e])
        refine ⟨w', ?_⟩
        rw [prepGatherFiles, if_pos (hfs f (by simp))]
        simp only [hr]
        rw [hw]
        simp [pFileEntries, List.filterMap_cons, hr]
      · obtain ⟨w', hw⟩ := ih (fun x hx => hfs x (by simp [hx]))
          (dictInsert dict ((abspath env.cwd f).getLast?.getD "") c) warns
        refine ⟨w', ?_⟩
        rw [prepGatherFiles, if_pos (hfs f (by simp))]
        simp only [hr]
        rw [hw]
        simp [pFileEntries, List.filterMap_cons, hr]

/-- C4 (amended): file gathering in each script merges all loaded entries
into one mapping in which a later entry with the same key overwrites an
earlier one (directories in order, then individual files): each key looks
up to the value of the last entry bearing it in the load sequence.  In
`gptdiff_apply` the individual-file keys are absolute paths; in
`prepare_context` the keys are relativized (and so not absolute in
general). -/
theorem c4_gather_overwrite_semantics
    (env : GEnv) (tds tfs : List (List String)) (k : RawPath)
    (penv : PEnv) (pds pfs : List RawPath) (plo pjs : Bool) (pk : String)
    (hpd : ∀ d ∈ (if pds = [] ∧ pfs = [] then [(⟨false, ["."]⟩ : RawPath)] else pds),
        penv.isDir (abspath penv.cwd d) = true)
    (hpf : ∀ f ∈ pfs, penv.isFile (abspath penv.cwd f) = true) :
    dictLookup (gatherG env tds tfs).1 k = lastVal (gEntries env tds tfs) k ∧
    (∀ e ∈ gFileEntries env tfs, e.1.absolute = true) ∧
    dictLookup (prepareMain penv ⟨pds, pfs, plo, pjs⟩).filesDict pk =
      lastVal (pDirEntries penv
          (if pds = [] ∧ pfs = [] then [⟨false, ["."]⟩] else pds)
        ++ pFileEntries penv pfs) pk := by
  refine ⟨gatherG_lookup_last env tds tfs k, ?_, ?_⟩
  · intro e he
    simp only [gFileEntries, List.mem_filterMap] at he
    obtain ⟨tf, _, hf⟩ := he
    rcases hr : env.readFile tf with er | c
    · rw [hr] at hf
      exact absurd hf (by simp)
    · rw [hr] at hf
      have : e = (⟨true, tf⟩, c) := by simpa using hf.symm
      rw [this]
  · have hdirs := prepGatherDirs_ok_eq penv _ hpd [] []
    obtain ⟨w', hfiles⟩ := prepGatherFiles_ok_eq penv pfs hpf
      ((pDirEntries penv
        (if pds = [] ∧ pfs = [] then [⟨false, ["."]⟩] else pds)).foldl
        (fun dc e => dictInsert dc e.1 e.2) []) []
    simp only [prepareMain, hdirs, hfiles]
    rw [dictLookup_foldl_insert, dictLookup_foldl_insert, lastVal_append]
    have : dictLookup ([] : List (String × String)) pk = none := rfl
    rw [this, Option.or_none]

/-- Concrete prepare-context run whose merged mapping is keyed by a bare
base name. -/
def cex4PEnv : PEnv :=
  { cwd := []
    isDir := fun _ => false
    isFile := fun c => c = ["x", "a.txt"]
    loadProjectFiles := fun _ => []
    readFile := fun _ => Except.ok "hello" }

def cex4PArgs : PArgs :=
  { dirs := [], files := [⟨true, ["x", "a.txt"]⟩], listOnly := false, json := false }

/-- C4 counterexample: `prepare_context.py` keys an individual target file
`/x/a.txt` by its base name `a.txt`, which is not an absolute path — so
the gathered mapping's keys are not absolute paths in every script. -/
theorem c4_counterexample_relative_key :
    (prepareMain cex4PEnv cex4PArgs).produced = true ∧
    (prepareMain cex4PEnv cex4PArgs).filesDict = [("a.txt", "hello")] ∧
    strStartsWith "a.txt" "/" = false := by
  decide

/-- C4 witness. -/
theorem c4_gather_overwrite_semantics_witness :
    dictLookup (gatherG wEnv [["t"]] []).1 ⟨true, ["t", "a.py"]⟩ =
      lastVal (gEntries wEnv [["t"]] []) ⟨true, ["t", "a.py"]⟩ ∧
    (∀ e ∈ gFileEntries wEnv [], e.1.absolute = true) ∧
    dictLookup (prepareMain cex4PEnv ⟨[], [⟨true, ["x", "a.txt"]⟩], false, false⟩).filesDict
        "a.txt" =
      lastVal (pDirEntries cex4PEnv
          (if ([] : List RawPath) = [] ∧ [(⟨true, ["x", "a.txt"]⟩ : RawPath)] = []
            then [⟨false, ["."]⟩] else [])
        ++ pFileEntries cex4PEnv [⟨true, ["x", "a.txt"]⟩]) "a.txt" :=
  c4_gather_overwrite_semantics wEnv [["t"]] [] ⟨true, ["t", "a.py"]⟩
    cex4PEnv [] [⟨true, ["x", "a.txt"]⟩] false false "a.txt"
    (by decide) (by decide)

/-! ## `list_agents.py`: frontmatter parsing and the agent catalog

Document contents are modelled as `List Char` (Python strings); a file
whose `read_text` raises is a `none` content.  The regex
`^---\n(.*?)\n---\n(.*)$` (with `re.DOTALL`) matches exactly when the
content starts with an opening `---` line and contains a later closing
`---` line; the non-greedy group takes everything up to the *first*
closing marker. -/

/-- The opening marker `"---\n"` of the frontmatter regex. -/
def fmOpen : List Char := ['-', '-', '-', '\n']

/-- The closing marker `"\n---\n"` of the frontmatter regex. -/
def fmClose : List Char := ['\n', '-', '-', '-', '\n']

/-- Split a character list at the first occurrence of `sep`, returning
the parts before and after it. -/
def splitFirst (sep : List Char) : List Char → Option (List Char × List Char)
  | [] => none
  | c :: rest =>
      if sep.isPrefixOf (c :: rest) then some ([], (c :: rest).drop sep.length)
      else
        match splitFirst sep rest with
        | some (a, b) => some (c :: a, b)
        | none => none

/-- The frontmatter regex match of line 23: frontmatter text and body. -/
def fmMatch (content : List Char) : Option (List Char × List Char) :=
  if fmOpen.isPrefixOf content then splitFirst fmClose (content.drop fmOpen.length)
  else none

/-- Python `str.strip()` on a character list. -/
def pyStripChars (s : List Char) : List Char :=
  ((s.dropWhile pyIsSpace).reverse.dropWhile pyIsSpace).reverse

/-- Python `str.split(c)` (all occurrences). -/
def splitOnChar (c : Char) : List Char → List (List Char)
  | [] => [[]]
  | x :: xs =>
      if x = c then [] :: splitOnChar c xs
      else
        match splitOnChar c xs with
        | h :: t => (x :: h) :: t
        | [] => [[x]]

/-- Lines 38–41: strip one layer of symmetric quotes. -/
def stripQuotesC (v : List Char) : List Char :=
  if v.head? = some '"' ∧ v.getLast? = some '"' then (v.drop 1).dropLast
  else if v.head? = some '\'' ∧ v.getLast? = some '\'' then (v.drop 1).dropLast
  else v

/-- An agent record is the Python dict built by `parse_agent_file`. -/
abbrev AgentDict := List (List Char × List Char)

/-- The `'prompt'` dict key. -/
def promptKey : List Char := ['p', 'r', 'o', 'm', 'p', 't']

/-- The `'name'` dict key. -/
def nameKey : List Char := ['n', 'a', 'm', 'e']

/-- The `'source'` dict key. -/
def sourceKey : List Char := ['s', 'o', 'u', 'r', 'c', 'e']

/-- `parse_agent_file` (lines 15–48): `none` on read failure or a
non-matching shape; otherwise the dict with the stripped body as prompt,
one entry per `key: value` frontmatter line, and the stem as fallback
name. -/
def parseAgentFile (stem : List Char) (content : Option (List Char)) :
    Option AgentDict :=
  match content with
  | none => none
  | some content =>
      match fmMatch content with
      | none => none
      | some (fm, body) =>
          let agent0 : AgentDict := [(promptKey, pyStripChars body)]
          let agent := (splitOnChar '\n' fm).foldl (fun a line =>
            match splitFirst [':'] line with
            | some (key, value) =>
                dictInsert a (pyStripChars key) (stripQuotesC (pyStripChars value))
            | none => a) agent0
          if (dictLookup agent nameKey).isSome then some agent
          else some (dictInsert agent nameKey stem)

/-- The `agent['name']` access (always present after parsing). -/
def agentName (a : AgentDict) : List Char :=
  (dictLookup a nameKey).getD []

/-- One discovered markdown document, in directory scan order: its path
string, its stem, and its content (`none` when unreadable). -/
structure AgentDoc where
  src : List Char
  stem : List Char
  content : Option (List Char)
deriving DecidableEq, Repr

/-- The accumulation loop of `find_agents` (lines 51–81) over the scan
order, with the `seen_names` set threaded through both glob passes of all
search paths. -/
def findAgentsLoop : List AgentDoc → List AgentDict → List (List Char) →
    List AgentDict
  | [], acc, _ => acc
  | d :: ds, acc, seen =>
      match parseAgentFile d.stem d.content with
      | some a =>
          if agentName a ∈ seen then findAgentsLoop ds acc seen
          else findAgentsLoop ds (acc ++ [dictInsert a sourceKey d.src])
            (agentName a :: seen)
      | none => findAgentsLoop ds acc seen

/-- Python string comparison (lexicographic by code point). -/
def charsLe : List Char → List Char → Bool
  | [], _ => true
  | _ :: _, [] => false
  | a :: as, b :: bs => if a = b then charsLe as bs else decide (a < b)

/-- The `sorted(agents, key=lambda a: a['name'])` order. -/
def agentLe (x y : AgentDict) : Prop :=
  charsLe (agentName x) (agentName y) = true

instance : DecidableRel agentLe :=
  fun _ _ => instDecidableEqBool _ _

/-- `find_agents` over the flattened scan order: dedup by name, first
occurrence wins, then sort by name. -/
def find_agents (docs : List AgentDoc) : List AgentDict :=
  List.insertionSort agentLe (findAgentsLoop docs [] [])

/-- The agent entry contributed by the first document in scan order that
parses to the given name. -/
def firstParse (docs : List AgentDoc) (n : List Char) : Option AgentDict :=
  match docs with
  | [] => none
  | d :: ds =>
      match parseAgentFile d.stem d.content with
      | some a =>
          if agentName a = n then some (dictInsert a sourceKey d.src)
          else firstParse ds n
      | none => firstParse ds n

/-! ## Lemmas about the frontmatter match and the catalog loop -/

theorem splitFirst_some_decomp (sep : List Char) (s a b : List Char)
    (h : splitFirst sep s = some (a, b)) : s = a ++ sep ++ b := by
  induction s generalizing a b with
  | nil => exact absurd h (by simp [splitFirst])
  | cons c rest ih =>
      rw [splitFirst] at h
      by_cases hp : sep.isPrefixOf (c :: rest)
      · rw [if_pos hp] at h
        have h2 : ([], (c :: rest).drop sep.length) = (a, b) := Option.some_inj.1 h
        obtain ⟨t, ht⟩ := List.isPrefixOf_iff_prefix.1 hp
        have hdrop : (c :: rest).drop sep.length = t := by
          rw [← ht]
          exact List.drop_left _ _
        injection h2 with ha hb
        subst ha
        subst hb
        rw [List.nil_append, hdrop, ← ht]
      · rw [if_neg hp] at h
        rcases hr : splitFirst sep rest with _ | ⟨a', b'⟩
        · rw [hr] at h
          exact absurd h (by simp)
        · rw [hr] at h
          have h2 : (c :: a', b') = (a, b) := Option.some_inj.1 h
          injection h2 with ha hb
          subst ha
          subst hb
          rw [ih a' b' hr]
          simp [List.cons_append, List.append_assoc]

theorem fmMatch_none_of_noshape (content : List Char)
    (h : ¬ ∃ hd bd, content = fmOpen ++ hd ++ fmClose ++ bd) :
    fmMatch content = none := by
  unfold fmMatch
  by_cases hp : fmOpen.isPrefixOf content
  · rw [if_pos hp]
    rcases hs : splitFirst fmClose (content.drop fmOpen.length) with _ | ⟨hd, bd⟩
    · rfl
    · exfalso
      apply h
      obtain ⟨t, ht⟩ := List.isPrefixOf_iff_prefix.1 hp
      have hdrop : content.drop fmOpen.length = t := by
        rw [← ht]
        exact List.drop_left _ _
      have hdec := splitFirst_some_decomp fmClose _ hd bd hs
      rw [hdrop] at hdec
      exact ⟨hd, bd, by rw [← ht, hdec]; simp [List.append_assoc]⟩
  · rw [if_neg hp]

theorem findAgentsLoop_skip (d : AgentDoc)
    (hd : parseAgentFile d.stem d.content = none) :
    ∀ (pre post : List AgentDoc) (acc : List AgentDict) (seen : List (List Char)),
      findAgentsLoop (pre ++ d :: post) acc seen =
        findAgentsLoop (pre ++ post) acc seen := by
  intro pre
  induction pre with
  | nil =>
      intro post acc seen
      simp only [List.nil_append, findAgentsLoop, hd]
  | cons p pre ih =>
      intro post acc seen
      simp only [List.cons_append, findAgentsLoop]
      rcases hp : parseAgentFile p.stem p.content with _ | a
      · exact ih post acc seen
      · by_cases hseen : agentName a ∈ seen
        · simp only [if_pos hseen]
          exact ih post acc seen
        · simp only [if_neg hseen]
          exact ih post _ _

/-- C7: a document whose content is not of the shape
`--- line, header block, --- line, body` yields no descriptor from the
parser and is excluded from the catalog while the scan continues over the
remaining documents. -/
theorem c7_bad_shape_excluded (stem content src : List Char)
    (pre post : List AgentDoc)
    (hshape : ¬ ∃ hd bd, content = fmOpen ++ hd ++ fmClose ++ bd) :
    parseAgentFile stem (some content) = none ∧
    find_agents (pre ++ (⟨src, stem, some content⟩ : AgentDoc) :: post) =
      find_agents (pre ++ post) := by
  have hm : fmMatch content = none := fmMatch_none_of_noshape content hshape
  have hp : parseAgentFile stem (some content) = none := by
    simp only [parseAgentFile, hm]
  refine ⟨hp, ?_⟩
  unfold find_agents
  rw [findAgentsLoop_skip ⟨src, stem, some content⟩ hp]

/-- C7 witness: a document with no frontmatter markers at all. -/
theorem c7_bad_shape_excluded_witness :
    parseAgentFile "fb".data (some "plain text".data) = none ∧
    find_agents ([] ++ (⟨"/p/x.md".data, "fb".data, some "plain text".data⟩ :
        AgentDoc) :: []) = find_agents ([] ++ []) :=
  c7_bad_shape_excluded "fb".data "plain text".data "/p/x.md".data [] []
    (by
      rintro ⟨hd, bd, heq⟩
      simp [fmOpen, fmClose] at heq)

theorem agentName_insert_source (a : AgentDict) (s : List Char) :
    agentName (dictInsert a sourceKey s) = agentName a := by
  unfold agentName
  rw [dictLookup_insert]
  rw [if_neg (by decide)]

theorem findAgentsLoop_acc_mono :
    ∀ (docs : List AgentDoc) (acc : List AgentDict) (seen : List (List Char))
      (a : AgentDict), a ∈ acc → a ∈ findAgentsLoop docs acc seen := by
  intro docs
  induction docs with
  | nil => intro acc seen a ha; exact ha
  | cons d ds ih =>
      intro acc seen a ha
      rcases hp : parseAgentFile d.stem d.content with _ | b
      · simp only [findAgentsLoop, hp]
        exact ih acc seen a ha
      · simp only [findAgentsLoop, hp]
        by_cases hseen : agentName b ∈ seen
        · rw [if_pos hseen]
          exact ih acc seen a ha
        · rw [if_neg hseen]
          exact ih _ _ a (List.mem_append_left _ ha)

theorem findAgentsLoop_mem_spec :
    ∀ (docs : List AgentDoc) (acc : List AgentDict) (seen : List (List Char))
      (a : AgentDict), a ∈ findAgentsLoop docs acc seen →
      a ∈ acc ∨ (agentName a ∉ seen ∧ firstParse docs (agentName a) = some a) := by
  intro docs
  induction docs with
  | nil => intro acc seen a ha; exact Or.inl ha
  | cons d ds ih =>
      intro acc seen a ha
      rcases hp : parseAgentFile d.stem d.content with _ | b
      · simp only [findAgentsLoop, hp] at ha
        rcases ih acc seen a ha with h | ⟨hn, hf⟩
        · exact Or.inl h
        · refine Or.inr ⟨hn, ?_⟩
          simp only [firstParse, hp]
          exact hf
      · simp only [findAgentsLoop, hp] at ha
        by_cases hseen : agentName b ∈ seen
        · rw [if_pos hseen] at ha
          rcases ih acc seen a ha with h | ⟨hn, hf⟩
          · exact Or.inl h
          · refine Or.inr ⟨hn, ?_⟩
            simp only [firstParse, hp]
            rw [if_neg (fun hbn : agentName b = agentName a => hn (hbn ▸ hseen))]
            exact hf
        · rw [if_neg hseen] at ha
          rcases ih _ _ a ha with h | ⟨hn, hf⟩
          · rcases List.mem_append.1 h with h' | h'
            · exact Or.inl h'
            · have ha' : a = dictInsert b sourceKey d.src :=
                List.mem_singleton.1 h'
              refine Or.inr ⟨?_, ?_⟩
              · rw [ha', agentName_insert_source]
                exact hseen
              · rw [ha', agentName_insert_source]
                simp only [firstParse, hp]
                simp
          · have hnb : agentName a ≠ agentName b := by
              intro hc
              exact hn (by rw [hc]; exact List.mem_cons_self _ _)
            refine Or.inr ⟨fun hc => hn (List.mem_cons_of_mem _ hc), ?_⟩
            simp only [firstParse, hp]
            rw [if_neg (fun hbn : agentName b = agentName a => hnb hbn.symm)]
            exact hf

theorem findAgentsLoop_nodup :
    ∀ (docs : List AgentDoc) (acc : List AgentDict) (seen : List (List Char)),
      (acc.map agentName).Nodup → (∀ n ∈ acc.map agentName, n ∈ seen) →
      ((findAgentsLoop docs acc seen).map agentName).Nodup := by
  intro docs
  induction docs with
  | nil => intro acc seen h1 _; exact h1
  | cons d ds ih =>
      intro acc seen h1 h2
      rcases hp : parseAgentFile d.stem d.content with _ | b
      · simp only [findAgentsLoop, hp]
        exact ih acc seen h1 h2
      · simp only [findAgentsLoop, hp]
        by_cases hseen : agentName b ∈ seen
        · rw [if_pos hseen]
          exact ih acc seen h1 h2
        · rw [if_neg hseen]
          refine ih _ _ ?_ ?_
          · rw [List.map_append]
            simp only [List.map_cons, List.map_nil, agentName_insert_source]
            rw [List.nodup_append]
            refine ⟨h1, List.nodup_singleton _, ?_⟩
            intro n hn hc
            simp only [List.mem_singleton] at hc
            exact hseen (hc ▸ h2 n hn)
          · intro n hn
            rw [List.map_append] at hn
            rcases List.mem_append.1 hn with h' | h'
            · exact List.mem_cons_of_mem _ (h2 n h')
            · simp only [List.map_cons, List.map_nil, List.mem_singleton,
                agentName_insert_source] at h'
              exact h' ▸ List.mem_cons_self _ _

theorem findAgentsLoop_complete :
    ∀ (docs : List AgentDoc) (acc : List AgentDict) (seen : List (List Char)),
      (∀ n ∈ seen, ∃ b ∈ acc, agentName b = n) →
      ∀ d ∈ docs, ∀ a, parseAgentFile d.stem d.content = some a →
        ∃ b ∈ findAgentsLoop docs acc seen, agentName b = agentName a := by
  intro docs
  induction docs with
  | nil => intro acc seen _ d hd; exact absurd hd (by simp)
  | cons d0 ds ih =>
      intro acc seen hseenacc d hd a hpa
      rcases hp : parseAgentFile d0.stem d0.content with _ | b
      · simp only [findAgentsLoop, hp]
        rcases List.mem_cons.1 hd with rfl | hd'
        · rw [hp] at hpa
          exact absurd hpa (by simp)
        · exact ih acc seen hseenacc d hd' a hpa
      · simp only [findAgentsLoop, hp]
        by_cases hseen : agentName b ∈ seen
        · rw [if_pos hseen]
          rcases List.mem_cons.1 hd with rfl | hd'
          · have hab : a = b := by
              rw [hp] at hpa
              exact (Option.some_inj.1 hpa).symm
            obtain ⟨c, hc, hcn⟩ := hseenacc (agentName b) hseen
            exact ⟨c, findAgentsLoop_acc_mono ds acc seen c hc, by rw [hcn, hab]⟩
          · exact ih acc seen hseenacc d hd' a hpa
        · rw [if_neg hseen]
          rcases List.mem_cons.1 hd with rfl | hd'
          · have hab : a = b := by
              rw [hp] at hpa
              exact (Option.some_inj.1 hpa).symm
            refine ⟨dictInsert b sourceKey d.src, ?_, ?_⟩
            · exact findAgentsLoop_acc_mono ds _ _ _
                (List.mem_append_right _ (List.mem_singleton_self _))
            · rw [agentName_insert_source, hab]
          · refine ih _ _ ?_ d hd' a hpa
            intro n hn
            rcases List.mem_cons.1 hn with rfl | hn'
            · exact ⟨dictInsert b sourceKey d0.src,
                List.mem_append_right _ (List.mem_singleton_self _),
                agentName_insert_source b d0.src⟩
            · obtain ⟨c, hc, hcn⟩ := hseenacc n hn'
              exact ⟨c, List.mem_append_left _ hc, hcn⟩

/-- C8: the catalog contains at most one descriptor per name; each catalog
entry is exactly the one contributed by the first document in scan order
that parses to its name (so a later document with the same name is
discarded, across all scanned roots); and every successfully parsed
document's name is represented in the catalog. -/
theorem c8_dedup_first_wins (docs : List AgentDoc) :
    ((find_agents docs).map agentName).Nodup ∧
    (∀ a ∈ find_agents docs, firstParse docs (agentName a) = some a) ∧
    (∀ d ∈ docs, ∀ a, parseAgentFile d.stem d.content = some a →
      ∃ b ∈ find_agents docs, agentName b = agentName a) := by
  have hperm := List.perm_insertionSort agentLe (findAgentsLoop docs [] [])
  unfold find_agents
  refine ⟨?_, ?_, ?_⟩
  · have h1 := findAgentsLoop_nodup docs [] [] (by simp) (by simp)
    exact ((hperm.map agentName).nodup_iff).2 h1
  · intro a ha
    have ha' : a ∈ findAgentsLoop docs [] [] := hperm.mem_iff.1 ha
    rcases findAgentsLoop_mem_spec docs [] [] a ha' with h | ⟨-, hf⟩
    · exact absurd h (by simp)
    · exact hf
  · intro d hd a hpa
    obtain ⟨b, hb, hn⟩ := findAgentsLoop_complete docs [] [] (by simp) d hd a hpa
    exact ⟨b, hperm.mem_iff.2 hb, hn⟩

/-- Concrete scan order for the C8 witness: two documents sharing the name
`alpha` in different roots, plus one named `zeta`. -/
def wDocs : List AgentDoc :=
  [⟨"/p/b.md".data, "b".data, some ("---\nname: zeta\n---\nBZ").data⟩,
   ⟨"/p/a.md".data, "a".data, some ("---\nname: alpha\n---\nA1").data⟩,
   ⟨"/q/a2.md".data, "a2".data, some ("---\nname: alpha\n---\nA2").data⟩]

/-- C8 witness. -/
theorem c8_dedup_first_wins_witness :
    ((find_agents wDocs).map agentName).Nodup ∧
    (∀ a ∈ find_agents wDocs, firstParse wDocs (agentName a) = some a) ∧
    (∀ d ∈ wDocs, ∀ a, parseAgentFile d.stem d.content = some a →
      ∃ b ∈ find_agents wDocs, agentName b = agentName a) :=
  c8_dedup_first_wins wDocs
